import Mathlib

/-!
Verification of the core extraction pipeline of the political-ads
collection repository: the batching output writer
(src/shared/output_writer.py), the checkpoint manager
(src/shared/checkpoint_manager.py), the token-bucket rate limiter
(src/shared/rate_limiter.py), and the orchestrator together with the Meta
reference adapter (src/collectors/base.py, src/collectors/meta/collector.py).

Each Python component is shallowly embedded as executable Lean
definitions: mutable objects become explicit state records, wall-clock
time becomes an exact rational parameter, float arithmetic is modelled
over the rationals, and calls into external libraries (the HTTP client,
`json.load`, `datetime.fromisoformat`) become function parameters or
small concrete models noted at their definition sites.
-/

/- ------------------------------------------------------------------ -/
/- OutputWriter (src/shared/output_writer.py)                          -/
/- ------------------------------------------------------------------ -/

/-- State of an `OutputWriter`: the configured batch capacity, the
in-memory buffer `current_batch`, the number of batches flushed so far,
the running record total, and the contents of every batch file written,
in order (a file is modelled by the list of record lines it holds; the
filename embeds the 1-based value of `batch_count` at flush time). -/
structure WriterState where
  batch_size : Nat
  current_batch : List String
  batch_count : Nat
  total_records : Nat
  batch_files : List (List String)
deriving Repr, DecidableEq

/-- A fresh `OutputWriter` with batch capacity `B` (constructor state). -/
def initWriter (B : Nat) : WriterState :=
  { batch_size := B, current_batch := [], batch_count := 0,
    total_records := 0, batch_files := [] }

/-- Model of `OutputWriter.flush_batch`: a no-op on an empty buffer; otherwise the
batch counter is incremented, the buffer is written out as one file, and
the buffer is cleared. -/
def flush_batch (s : WriterState) : WriterState :=
  if s.current_batch = [] then s
  else
    { s with
      batch_count := s.batch_count + 1,
      batch_files := s.batch_files ++ [s.current_batch],
      current_batch := [] }

/-- Model of `OutputWriter.write_record`: append the record to the buffer, bump
`total_records`, and flush as a side effect once the buffer has reached
`batch_size`. -/
def write_record (s : WriterState) (r : String) : WriterState :=
  let s' := { s with
    current_batch := s.current_batch ++ [r],
    total_records := s.total_records + 1 }
  if s'.batch_size ≤ s'.current_batch.length then flush_batch s' else s'

/-- Model of `OutputWriter.write_records`: write each record in turn. -/
def write_records (s : WriterState) (rs : List String) : WriterState :=
  rs.foldl write_record s

/-- The manifest fields produced by `OutputWriter.finalize` that the
batching contract speaks about. -/
structure Manifest where
  total_records : Nat
  total_batches : Nat
  batch_files : List (List String)
deriving Repr, DecidableEq

/-- Model of `OutputWriter.finalize`: flush any remainder, then build the manifest
from the writer's counters and file list. -/
def finalize (s : WriterState) : WriterState × Manifest :=
  let s' := flush_batch s
  (s', { total_records := s'.total_records, total_batches := s'.batch_count,
         batch_files := s'.batch_files })

/-- Ceiling division, used to state the batching-exactness contract. -/
def ceilDiv (n b : Nat) : Nat := (n + b - 1) / b

/-- The running invariant of the writer after `n` single-record writes
from the fresh state: the buffer holds the last `n % B` records, `n / B`
full batches of exactly `B` records each have been flushed, and the
running total is `n`. -/
def writerInv (B n : Nat) (s : WriterState) : Prop :=
  s.batch_size = B ∧
  s.current_batch.length = n % B ∧
  s.batch_count = n / B ∧
  s.total_records = n ∧
  s.batch_files.map List.length = List.replicate (n / B) B

/- ------------------------------------------------------------------ -/
/- CheckpointManager (src/shared/checkpoint_manager.py)                -/
/- ------------------------------------------------------------------ -/

/-- A JSON value as stored in a checkpoint dictionary; the checkpoint
code only ever stores strings and integers under its keys. -/
inductive JVal
  | str (s : String)
  | num (n : Int)
  | null
deriving Repr, DecidableEq

/-- A Python `dict[str, Any]` holding JSON data: an association list in
key-insertion order with unique keys, as the dict operations below
maintain. -/
abbrev CheckpointData := List (String × JVal)

/-- Python dict assignment `d[k] = v`: overwrite in place when the key
exists (keeping its position), else append at the end. -/
def dictSet : CheckpointData → String → JVal → CheckpointData
  | [], k, v => [(k, v)]
  | (k', v') :: t, k, v =>
    if k' = k then (k, v) :: t else (k', v') :: dictSet t k v

/-- Python `d.get(k)`. -/
def dictGet : CheckpointData → String → Option JVal
  | [], _ => none
  | (k', v') :: t, k => if k' = k then some v' else dictGet t k

/-- Python `d.get(k, 0)` for the integer `records_processed` counter
(the code only ever stores an integer under this key). -/
def dictGetNum (d : CheckpointData) (k : String) : Int :=
  match dictGet d k with
  | some (.num n) => n
  | _ => 0

/-- Python `d.update(extra)`: assign every key of `extra` in order. -/
def dictUpdate (d : CheckpointData) (extra : List (String × JVal)) :
    CheckpointData :=
  extra.foldl (fun acc kv => dictSet acc kv.1 kv.2) d

/-- Model of `CheckpointManager.save`: copy the dictionary, stamp `last_update`
with the current timestamp, stamp `platform` with the manager's platform,
and write the result; the JSON serialisation round trip through the file
is the identity on these dictionaries, so the stored value is returned
directly. -/
def ckptSave (platform ts : String) (d : CheckpointData) : CheckpointData :=
  dictSet (dictSet d "last_update" (.str ts)) "platform" (.str platform)

/-- Model of `CheckpointManager.save_cursor`: load (or start from an empty dict),
set the cursor, add `records_in_batch` to the stored `records_processed`,
merge `additional_data`, and save. -/
def save_cursor (platform ts cursor : String) (records_in_batch : Int)
    (extra : List (String × JVal)) (store : Option CheckpointData) :
    CheckpointData :=
  let cp := store.getD []
  let cp := dictSet cp "cursor" (.str cursor)
  let cp := dictSet cp "records_processed"
    (.num (dictGetNum cp "records_processed" + records_in_batch))
  ckptSave platform ts (dictUpdate cp extra)

/-- Model of `CheckpointManager.update_progress`: load (or start from an empty
dict), overwrite `records_processed` with the given absolute count, merge
`additional_data`, and save; the cursor is left untouched. -/
def update_progress (platform ts : String) (records_processed : Int)
    (extra : List (String × JVal)) (store : Option CheckpointData) :
    CheckpointData :=
  let cp := store.getD []
  let cp := dictSet cp "records_processed" (.num records_processed)
  ckptSave platform ts (dictUpdate cp extra)

/-- Decoding one UTF-8 sequence per step, following RFC 3629 exactly as
Python's strict utf-8 codec does (continuation ranges, surrogate and
overlong rejection); `none` models a `UnicodeDecodeError`. -/
def utf8DecodeChars : List Nat → Option (List Char)
  | [] => some []
  | b :: rest =>
    if b < 0x80 then
      (utf8DecodeChars rest).map (fun cs => Char.ofNat b :: cs)
    else if 0xC2 ≤ b ∧ b ≤ 0xDF then
      match rest with
      | c1 :: r =>
        if 0x80 ≤ c1 ∧ c1 ≤ 0xBF then
          (utf8DecodeChars r).map (fun cs =>
            Char.ofNat ((b - 0xC0) * 64 + (c1 - 0x80)) :: cs)
        else none
      | [] => none
    else if 0xE0 ≤ b ∧ b ≤ 0xEF then
      match rest with
      | c1 :: c2 :: r =>
        if (if b = 0xE0 then 0xA0 ≤ c1 else 0x80 ≤ c1) ∧
            (if b = 0xED then c1 ≤ 0x9F else c1 ≤ 0xBF) ∧
            0x80 ≤ c2 ∧ c2 ≤ 0xBF then
          (utf8DecodeChars r).map (fun cs =>
            Char.ofNat ((b - 0xE0) * 4096 + (c1 - 0x80) * 64 + (c2 - 0x80))
              :: cs)
        else none
      | _ => none
    else if 0xF0 ≤ b ∧ b ≤ 0xF4 then
      match rest with
      | c1 :: c2 :: c3 :: r =>
        if (if b = 0xF0 then 0x90 ≤ c1 else 0x80 ≤ c1) ∧
            (if b = 0xF4 then c1 ≤ 0x8F else c1 ≤ 0xBF) ∧
            0x80 ≤ c2 ∧ c2 ≤ 0xBF ∧ 0x80 ≤ c3 ∧ c3 ≤ 0xBF then
          (utf8DecodeChars r).map (fun cs =>
            Char.ofNat ((b - 0xF0) * 262144 + (c1 - 0x80) * 4096 +
              (c2 - 0x80) * 64 + (c3 - 0x80)) :: cs)
        else none
      | _ => none
    else none

/-- The error type raised by CheckpointManager operations
(shared/exceptions.py, `CheckpointError`). -/
inductive CkptError
  | checkpointError (msg : String)
deriving Repr, DecidableEq

/-- Model of `CheckpointManager.load` applied to the bytes stored at the checkpoint
path (`none` when the file does not exist). Reading the file decodes the
bytes as UTF-8 before `json.load` (modelled by the parameter `jp`, with
`none` standing for a raised `json.JSONDecodeError`) parses the text. The
`except json.JSONDecodeError` clause turns a JSON parse failure into the
absent result, but a `UnicodeDecodeError` is a sibling `ValueError`, not
a `JSONDecodeError`, so it falls to the generic handler, which re-raises
it as `CheckpointError`. -/
def loadFromBytes (jp : String → Option CheckpointData) :
    Option (List Nat) → Except CkptError (Option CheckpointData)
  | none => .ok none
  | some bytes =>
    match utf8DecodeChars bytes with
    | none =>
      .error (.checkpointError "Failed to load checkpoint: UnicodeDecodeError")
    | some cs =>
      match jp (String.mk cs) with
      | none => .ok none
      | some d => .ok (some d)

/- ------------------------------------------------------------------ -/
/- MetaAdCollector.fetch_ads checkpointing (src/collectors/meta/…)     -/
/- ------------------------------------------------------------------ -/

/-- One page of the paginated `ads_archive` response as `fetch_ads`
consumes it: the number of ads in `data`, the `paging.cursors.after`
cursor, and whether a `paging.next` link is present. -/
structure Page where
  count : Nat
  after : Option String
  hasNext : Bool
deriving Repr, DecidableEq

/-- Python truthiness of an optional string (`if cursor:`): absent and
empty strings are falsy. -/
def strTruthy : Option String → Bool
  | none => false
  | some s => !(s == "")

/-- The per-ad yield loop of `fetch_ads` for one page, restricted to its
checkpointing effect: each yielded ad increments
`_records_since_checkpoint`; once it reaches `checkpoint_interval` and
the page's `after` cursor is truthy, `save_cursor` persists the cursor
with the accumulated count (which then resets); the list of persisted
`records_processed` values is recorded in order. -/
def adLoop (platform ts : String) (I : Nat) (after : Option String)
    (extra : List (String × JVal)) :
    Nat → Nat → Option CheckpointData → List Int →
    Nat × Option CheckpointData × List Int
  | 0, since, store, writes => (since, store, writes)
  | k + 1, since, store, writes =>
    let since' := since + 1
    if I ≤ since' ∧ strTruthy after = true then
      let st' := save_cursor platform ts (after.getD "") (since' : Int) extra
        store
      adLoop platform ts I after extra k 0 (some st')
        (writes ++ [dictGetNum st' "records_processed"])
    else
      adLoop platform ts I after extra k since' store writes

/-- The pagination loop of `fetch_ads`: per page, `total_ads` and
`page_count` are bumped, the ads are yielded through `adLoop`, and the
loop continues while `paging.next` exists and the `after` cursor is
truthy. Returns the store, the persisted `records_processed` values, the
final `total_ads`, and the final `page_count`. The `additional_data`
passed to `save_cursor` during a page is `pageExtra`. -/
def pageExtra (dr : String) (total' pc' : Int) : List (String × JVal) :=
  [("total_fetched", .num total'), ("pages_processed", .num pc'),
    ("date_range", .str dr)]

def pageLoop (platform ts dr : String) (I : Nat) :
    List Page → Nat → Int → Int → Option CheckpointData → List Int →
    Option CheckpointData × List Int × Int × Int
  | [], _, total, pc, store, writes => (store, writes, total, pc)
  | pg :: rest, since, total, pc, store, writes =>
    let total' := total + (pg.count : Int)
    let pc' := pc + 1
    let r := adLoop platform ts I pg.after (pageExtra dr total' pc')
      pg.count since store writes
    if pg.hasNext = true ∧ strTruthy pg.after = true then
      pageLoop platform ts dr I rest r.1 total' pc' r.2.1 r.2.2
    else
      (r.2.1, r.2.2, total', pc')

/-- The checkpoint-write trace of one complete `fetch_ads` stream: the
pagination loop followed by the final unconditional
`update_progress(records_processed=total_ads)`. Returns the final store
and the persisted `records_processed` values in write order. The
`additional_data` of the final `update_progress` call is `finalExtra`. -/
def finalExtra (dr : String) (pc : Int) : List (String × JVal) :=
  [("status", .str "completed"), ("pages_processed", .num pc),
    ("date_range", .str dr)]

def fetchAdsCkpt (platform ts dr : String) (I : Nat) (pages : List Page)
    (store : Option CheckpointData) :
    Option CheckpointData × List Int :=
  let r := pageLoop platform ts dr I pages 0 0 0 store []
  let final := update_progress platform ts r.2.2.1
    (finalExtra dr r.2.2.2) r.1
  (some final, r.2.1 ++ [dictGetNum final "records_processed"])

/-- Projection of the `records_processed` counter out of a checkpoint
store; an absent checkpoint counts as zero, exactly as
`checkpoint.get("records_processed", 0)` after `load() or {}`. -/
def rpOf (store : Option CheckpointData) : Int :=
  match store with
  | none => 0
  | some d => dictGetNum d "records_processed"

/- ------------------------------------------------------------------ -/
/- RateLimiter (src/shared/rate_limiter.py)                            -/
/- ------------------------------------------------------------------ -/

/-- Configuration and mutable state of a `RateLimiter`. Wall-clock
seconds are exact rationals (float rounding is abstracted); `tokens` is
the token-bucket level, `last_update` the timestamp of the last refill,
and the remaining fields are the statistics counters the class keeps. -/
structure RL where
  requests_per_minute : Nat
  burst : Nat
  backoff_multiplier : Rat
  max_retries : Nat
  initial_retry_delay : Rat
  tokens : Rat
  last_update : Rat
  request_history : List Rat
  total_requests : Nat
  total_wait_time : Rat
  rate_limit_errors : Nat
deriving Repr, DecidableEq

/-- The derived rate `requests_per_second = requests_per_minute / 60.0`. -/
def RL.rps (s : RL) : Rat := (s.requests_per_minute : Rat) / 60

/-- The `RateLimiter.__init__` state at construction time `now`: a full
bucket and zeroed statistics. -/
def RL.init (rpm burst : Nat) (bm : Rat) (mr : Nat) (ird : Rat)
    (now : Rat) : RL :=
  { requests_per_minute := rpm, burst := burst, backoff_multiplier := bm,
    max_retries := mr, initial_retry_delay := ird,
    tokens := (burst : Rat), last_update := now, request_history := [],
    total_requests := 0, total_wait_time := 0, rate_limit_errors := 0 }

/-- Model of `RateLimiter.wait_if_needed` (the spec's `acquire`) called at time
`now`: refill from elapsed time capped at `burst`, sleep for the token
deficit when fewer than one token is available (setting the level to
exactly one), consume one token, record the post-sleep timestamp in the
history and prune entries older than 300 seconds. Returns the seconds
slept and the new state. -/
def wait_if_needed (s : RL) (now : Rat) : Rat × RL :=
  let elapsed := now - s.last_update
  let tokens1 := min (s.burst : Rat) (s.tokens + elapsed * s.rps)
  let wait := if tokens1 < 1 then (1 - tokens1) / s.rps else 0
  let tokens2 := if tokens1 < 1 then (1 : Rat) else tokens1
  let tw := if tokens1 < 1 then s.total_wait_time + wait else s.total_wait_time
  let current := now + wait
  let hist := (s.request_history ++ [current]).filter
    (fun t => decide (current - 300 < t))
  (wait,
    { s with
      tokens := tokens2 - 1,
      last_update := now,
      total_wait_time := tw,
      total_requests := s.total_requests + 1,
      request_history := hist })

/-- The error raised by `RateLimiter.handle_rate_limit_error` once the
retry budget is exhausted (shared/exceptions.py, `RateLimitError`). -/
inductive RLError
  | rateLimitExceeded
deriving Repr, DecidableEq

/-- Model of `RateLimiter.handle_rate_limit_error` (the spec's `reportThrottled`)
called at time `now`: when `attempt > max_retries` it raises
`RateLimitError` before touching any state (no sleep, no counter); else
it counts the throttle, sleeps `retry_after` when given and otherwise
`initial_retry_delay * backoff_multiplier ^ (attempt - 1)`, and refills
the bucket to full capacity, returning the seconds slept. -/
def handle_rate_limit_error (s : RL) (now : Rat) (retry_after : Option Rat)
    (attempt : Int) : Except RLError (Rat × RL) :=
  if (s.max_retries : Int) < attempt then .error .rateLimitExceeded
  else
    let wait := match retry_after with
      | some ra => ra
      | none => s.initial_retry_delay * s.backoff_multiplier ^ (attempt - 1)
    .ok (wait,
      { s with
        rate_limit_errors := s.rate_limit_errors + 1,
        total_wait_time := s.total_wait_time + wait,
        tokens := (s.burst : Rat),
        last_update := now + wait })

/-- Model of `RateLimiter.reset` at time `now`: full bucket, cleared history and
counters. -/
def RL.reset (s : RL) (now : Rat) : RL :=
  { s with
    tokens := (s.burst : Rat),
    last_update := now,
    request_history := [],
    total_requests := 0,
    total_wait_time := 0,
    rate_limit_errors := 0 }

/-- One externally observable call on a `RateLimiter`, tagged with the
wall-clock time at which it happens. -/
inductive RLOp
  | acquire (now : Rat)
  | throttled (now : Rat) (retry_after : Option Rat) (attempt : Int)
  | reset (now : Rat)
deriving Repr, DecidableEq

/-- The state after one call; a `handle_rate_limit_error` call that
raises leaves the object's state untouched, since the raise happens
before any mutation. -/
def RLOp.apply (s : RL) : RLOp → RL
  | .acquire now => (wait_if_needed s now).2
  | .throttled now ra attempt =>
    match handle_rate_limit_error s now ra attempt with
    | .ok (_, s') => s'
    | .error _ => s
  | .reset now => RL.reset s now

/-- The state after a sequence of calls. -/
def runOps (s : RL) (ops : List RLOp) : RL := ops.foldl RLOp.apply s

/- ------------------------------------------------------------------ -/
/- MetaAdCollector._make_request retry (src/collectors/meta/…)         -/
/- ------------------------------------------------------------------ -/

/-- The provider's reply to one HTTP request issued by `_make_request`:
success, a throttling reply (error code 4/17 or HTTP 429, with its
Retry-After value), a non-retryable API error, or a network failure
(`requests.RequestException`, including timeouts). -/
inductive ApiResp
  | ok
  | throttled (retry_after : Rat)
  | apiError
  | netError
deriving Repr, DecidableEq

/-- The exceptions that can escape `_make_request`: the repository's
`RateLimitError`, `APIError` and the HTTP client's request exceptions,
plus tenacity's `RetryError`, which wraps the exception of the last
failed attempt once `stop_after_attempt` is hit. -/
inductive FetchErr
  | rateLimitError
  | apiError
  | netError
  | retryExhausted (last : FetchErr)
deriving Repr, DecidableEq

/-- Which exceptions the `@retry` decorator on `_make_request` retries:
`retry_if_exception_type((requests.RequestException, RateLimitError))`. -/
def retryable : FetchErr → Bool
  | .rateLimitError => true
  | .netError => true
  | _ => false

/-- The body of `_make_request` for one attempt: a throttling reply first
calls `RateLimiter.handle_rate_limit_error(retry_after=...)` — with the
`attempt` parameter left at its default 1 — and then raises
`RateLimitError`; when the limiter call itself raises (only possible
with `max_retries = 0`), that `RateLimitError` propagates instead and
the limiter state is unchanged. Other errors map per the error-code
table. -/
def attemptOnce (resp : ApiResp) (s : RL) (now : Rat) :
    Except FetchErr Unit × RL :=
  match resp with
  | .ok => (.ok (), s)
  | .throttled ra =>
    match handle_rate_limit_error s now (some ra) 1 with
    | .ok (_, s') => (.error .rateLimitError, s')
    | .error _ => (.error .rateLimitError, s)
  | .apiError => (.error .apiError, s)
  | .netError => (.error .netError, s)

/-- The tenacity retry loop around `_make_request` with `remaining`
attempts left of the `stop_after_attempt(5)` budget: issue the request
(consuming `resp attempt`), succeed on `.ok`, re-raise a non-retryable
error at once, retry a retryable one while budget remains, and wrap the
last retryable error in `RetryError` when the budget is spent. Returns
the outcome, the limiter state, and the number of requests issued. -/
def tenacityLoop (resp : Nat → ApiResp) (now : Rat) :
    Nat → Nat → RL → Except FetchErr Unit × RL × Nat
  | 0, _, s => (.ok (), s, 0)
  | n + 1, attempt, s =>
    let r := attemptOnce (resp attempt) s now
    match r.1 with
    | .ok _ => (.ok (), r.2, 1)
    | .error e =>
      if retryable e then
        if n = 0 then (.error (.retryExhausted e), r.2, 1)
        else
          let r2 := tenacityLoop resp now n (attempt + 1) r.2
          (r2.1, r2.2.1, r2.2.2 + 1)
      else (.error e, r.2, 1)

/-- One call to the decorated `_make_request`, whose `@retry` uses
`stop_after_attempt(5)`: attempts are numbered from 1 and `resp n` is
the provider's reply to the nth attempt. -/
def makeRequest (resp : Nat → ApiResp) (now : Rat) (s : RL) :
    Except FetchErr Unit × RL × Nat :=
  tenacityLoop resp now 5 1 s

/- ------------------------------------------------------------------ -/
/- MetaAdCollector.validate_record and _parse_range                    -/
/- ------------------------------------------------------------------ -/

/-- A value held by one of the fields validation inspects: Python values
are strings or numbers there. -/
inductive FieldVal
  | str (s : String)
  | num (q : Rat)
deriving Repr, DecidableEq

/-- Python whitespace characters for `str.strip()`. -/
def isPySpace (c : Char) : Bool :=
  c == ' ' || c == '\t' || c == '\n' || c == '\r'

/-- The required-field test of `_validate_required_fields`:
`value is None or (isinstance(value, str) and not value.strip())`. -/
def missingOrEmpty : Option FieldVal → Bool
  | none => true
  | some (.str s) => s.data.all isPySpace
  | some (.num _) => false

/-- A transformed record, restricted to the fields `validate_record`
reads. Date fields are the raw strings handed to
`datetime.fromisoformat`; numeric range fields are the floats produced
by `_parse_range`. -/
structure AdRecord where
  ad_id : Option FieldVal
  platform : Option FieldVal
  advertiser_name : Option FieldVal
  start_date : Option String
  end_date : Option String
  ad_creation_time : Option String
  spend_min : Option Rat
  spend_max : Option Rat
  impressions_min : Option Rat
  impressions_max : Option Rat
deriving Repr, DecidableEq

/-- Field lookup for the required-field loop. -/
def getRequired (r : AdRecord) : String → Option FieldVal
  | "ad_id" => r.ad_id
  | "platform" => r.platform
  | "advertiser_name" => r.advertiser_name
  | _ => none

/-- Model of `BaseAdCollector._validate_required_fields`: return on the first
missing or empty field, naming it in the message. -/
def validateRequiredFields (r : AdRecord) :
    List String → Bool × Option String
  | [] => (true, none)
  | f :: rest =>
    if missingOrEmpty (getRequired r f) then
      (false, some ("Missing or empty required field: " ++ f))
    else validateRequiredFields r rest

/-- Python truthiness of `record.get("ad_id", "")`: `None` is replaced
by the empty string, empty strings and zero are falsy. -/
def pyFalsy : Option FieldVal → Bool
  | none => true
  | some (.str s) => s == ""
  | some (.num q) => q == 0

/-- The second half of the `ad_id` emptiness test,
`not str(ad_id).strip()`: only whitespace-only strings qualify, since
`str` of a number is never blank. -/
def strOfStripEmpty : Option FieldVal → Bool
  | none => true
  | some (.str s) => s.data.all isPySpace
  | some (.num _) => false

/-- Rendering of a field value inside an error message (Python string
interpolation, abstracted). -/
def fieldStr : Option FieldVal → String
  | none => "None"
  | some (.str s) => s
  | some (.num q) => toString q

/-- The date-format loop of `validate_record`: a truthy date string that
`datetime.fromisoformat` (the parameter `isoOk`, applied after the
Z-normalisation the code performs) rejects fails validation. -/
def dateCheck (isoOk : String → Bool) :
    List (String × Option String) → Bool × Option String
  | [] => (true, none)
  | (f, v) :: rest =>
    match v with
    | some s =>
      if s ≠ "" ∧ isoOk s = false then
        (false, some ("Invalid date format for " ++ f ++ ": " ++ s))
      else dateCheck isoOk rest
    | none => dateCheck isoOk rest

/-- The spend cross-field test at the end of `validate_record`: it fires
only when both spend bounds are present and min exceeds max. No
corresponding test exists for the impressions bounds. -/
def spendCheckTriggers (mn mx : Option Rat) : Bool :=
  match mn, mx with
  | some a, some b => decide (b < a)
  | _, _ => false

/-- Model of `MetaAdCollector.validate_record`: required fields, the `ad_id`
emptiness re-check, the platform identity check, date formats, then the
spend min/max sanity check; the first failing check returns. -/
def validate_record (isoOk : String → Bool) (r : AdRecord) :
    Bool × Option String :=
  let req := validateRequiredFields r ["ad_id", "platform", "advertiser_name"]
  if req.1 then
    if pyFalsy r.ad_id || strOfStripEmpty r.ad_id then
      (false, some "ad_id is empty")
    else if r.platform ≠ some (.str "meta") then
      (false, some ("Invalid platform: " ++ fieldStr r.platform))
    else
      let dates := dateCheck isoOk
        [("start_date", r.start_date), ("end_date", r.end_date),
          ("ad_creation_time", r.ad_creation_time)]
      if dates.1 then
        if spendCheckTriggers r.spend_min r.spend_max then
          (false, some ("spend_min (" ++ fieldStr (r.spend_min.map .num) ++
            ") > spend_max (" ++ fieldStr (r.spend_max.map .num) ++ ")"))
        else (true, none)
      else dates
  else req

/-- Removal of thousands separators, `str(x).replace(",", "")`. -/
def stripCommas (s : String) : String :=
  String.mk (s.data.filter (fun c => c != ','))

/-- Splitting a character list at the decimal points. -/
def splitOnDot : List Char → List (List Char)
  | [] => [[]]
  | c :: rest =>
    if c = '.' then [] :: splitOnDot rest
    else
      match splitOnDot rest with
      | [] => [[c]]
      | g :: gs => (c :: g) :: gs

/-- Value of a digit string. -/
def digitsToNat (cs : List Char) : Nat :=
  cs.foldl (fun n c => n * 10 + (c.toNat - 48)) 0

/-- A decimal-numeral parser standing for Python `float()` on the
strings the Meta API returns for range bounds: digits with at most one
decimal point (not both sides empty); anything else raises `ValueError`
(`none`). Signs and exponents are outside the modelled domain. -/
def pyFloat (s : String) : Option Rat :=
  match splitOnDot s.data with
  | [a] =>
    if a ≠ [] ∧ a.all Char.isDigit then
      some ((digitsToNat a : Nat) : Rat)
    else none
  | [a, b] =>
    if (a ≠ [] ∨ b ≠ []) ∧ a.all Char.isDigit ∧ b.all Char.isDigit then
      some (((digitsToNat a : Nat) : Rat)
        + ((digitsToNat b : Nat) : Rat) / (10 : Rat) ^ b.length)
    else none
  | _ => none

/-- The `spend` / `impressions` dictionary of a raw Meta ad: optional
`lower_bound` / `upper_bound` strings. An absent or non-dict value is
`none`. -/
structure RangeData where
  lower_bound : Option String
  upper_bound : Option String
deriving Repr, DecidableEq

/-- Model of `MetaAdCollector._parse_range` with `pf` standing for `float`: parse
the lower bound when present; then parse the upper bound when present,
and otherwise copy the parsed lower bound into `max`. A `ValueError`
mid-way (a failing parse) jumps to the except clause, leaving the fields
assigned so far; the result is the `(min, max)` pair. -/
def parse_range (pf : String → Option Rat) (rd : Option RangeData) :
    Option Rat × Option Rat :=
  match rd with
  | none => (none, none)
  | some d =>
    match d.lower_bound with
    | none =>
      match d.upper_bound with
      | none => (none, none)
      | some u =>
        match pf (stripCommas u) with
        | none => (none, none)
        | some uv => (none, some uv)
    | some l =>
      match pf (stripCommas l) with
      | none => (none, none)
      | some lv =>
        match d.upper_bound with
        | none => (some lv, some lv)
        | some u =>
          match pf (stripCommas u) with
          | none => (some lv, none)
          | some uv => (some lv, some uv)

/- ------------------------------------------------------------------ -/
/- BaseAdCollector.run (src/collectors/base.py)                        -/
/- ------------------------------------------------------------------ -/

/-- How the `fetch_ads` stream terminates: gracefully, via
`KeyboardInterrupt`, or by raising an exception (carrying its message). -/
inductive FetchEnd
  | done
  | interrupted
  | raised (msg : String)
deriving Repr, DecidableEq

/-- A concrete collector as `run` consumes it: what its `authenticate()`
would return (never consulted by `run` itself), the raw items its
`fetch_ads` stream yields before terminating as `fetchEnd` says, and its
`transform_ad` / `validate_record` implementations. -/
structure Adapter where
  authOk : Bool
  fetchItems : List String
  fetchEnd : FetchEnd
  transform : String → String
  validate : String → Bool × Option String

/-- The adapter and writer calls `run` performs, in order. -/
inductive RunEvent
  | authenticateCall
  | fetchAdsCall
  | transformCall
  | validateCall
  | writeRecordCall
  | finalizeCall
deriving Repr, DecidableEq

/-- The `stats` summary dictionary `run` builds. -/
structure RunStats where
  records_fetched : Nat
  records_valid : Nat
  records_invalid : Nat
  validation_errors : List String
  interrupted : Bool
  error : Option String
  manifest : Option Manifest
deriving Repr, DecidableEq

/-- What a `run()` call produces: the call trace, the summary, and the
exception re-raised after the finally block, if any. -/
structure RunResult where
  events : List RunEvent
  stats : RunStats
  raised : Option String

/-- The loop body of `run` for one raw ad: count it, transform, validate;
an invalid record bumps the invalid counter and is appended to the
100-entry error sample; a valid one bumps the valid counter and is
written unless dry-run. -/
def processItem (a : Adapter) (dry : Bool) :
    WriterState × RunStats × List RunEvent → String →
    WriterState × RunStats × List RunEvent
  | (w, st, evs), raw =>
    let st1 := { st with records_fetched := st.records_fetched + 1 }
    let t := a.transform raw
    let v := a.validate t
    let evs1 := evs ++ [RunEvent.transformCall, RunEvent.validateCall]
    if v.1 then
      let st2 := { st1 with records_valid := st1.records_valid + 1 }
      if dry then (w, st2, evs1)
      else (write_record w t, st2, evs1 ++ [RunEvent.writeRecordCall])
    else
      (w,
        { st1 with
          records_invalid := st1.records_invalid + 1,
          validation_errors :=
            if st1.validation_errors.length < 100 then
              st1.validation_errors ++ [v.2.getD ""]
            else st1.validation_errors },
        evs1)

/-- Model of `BaseAdCollector.run`: it starts the `fetch_ads` stream directly —
its docstring lists authentication as step 1, but no call to
`authenticate()` exists in its body — processes every yielded item,
handles `KeyboardInterrupt` by flagging the summary and any other
exception by recording it and re-raising, and in the `finally` block
(unless dry-run) always calls `finalize`, which writes a manifest. -/
def runCollector (a : Adapter) (B : Nat) (dry : Bool) : RunResult :=
  let st0 : RunStats :=
    { records_fetched := 0, records_valid := 0, records_invalid := 0,
      validation_errors := [], interrupted := false, error := none,
      manifest := none }
  let acc := a.fetchItems.foldl (processItem a dry)
    (initWriter B, st0, [RunEvent.fetchAdsCall])
  let st1 :=
    match a.fetchEnd with
    | .done => acc.2.1
    | .interrupted => { acc.2.1 with interrupted := true }
    | .raised msg => { acc.2.1 with error := some msg }
  if dry then
    { events := acc.2.2, stats := st1,
      raised := match a.fetchEnd with | .raised msg => some msg | _ => none }
  else
    { events := acc.2.2 ++ [RunEvent.finalizeCall],
      stats := { st1 with manifest := some (finalize acc.1).2 },
      raised := match a.fetchEnd with | .raised msg => some msg | _ => none }

/- Arithmetic helpers for the batching invariant. -/

theorem succ_div_mod_of_full (B n : Nat) (hB : 0 < B) (h : n % B + 1 = B) :
    (n + 1) / B = n / B + 1 ∧ (n + 1) % B = 0 := by
  have hd := Nat.div_add_mod n B
  have hmul : B * (n / B + 1) = B * (n / B) + B := by ring
  have hstep : n + 1 = B * (n / B + 1) := by omega
  constructor
  · rw [hstep, Nat.mul_div_cancel_left _ hB]
  · rw [hstep, Nat.mul_mod_right]

theorem succ_div_mod_of_partial (B n : Nat) (hB : 0 < B) (h : n % B + 1 < B) :
    (n + 1) / B = n / B ∧ (n + 1) % B = n % B + 1 := by
  have hd := Nat.div_add_mod n B
  have he : n + 1 = B * (n / B) + (n % B + 1) := by omega
  constructor
  · rw [he, Nat.mul_add_div hB, Nat.div_eq_of_lt h, Nat.add_zero]
  · rw [he, Nat.mul_add_mod, Nat.mod_eq_of_lt h]

theorem ceilDiv_eq (N B : Nat) (hB : 0 < B) :
    ceilDiv N B = N / B + (if N % B = 0 then 0 else 1) := by
  rcases Nat.eq_zero_or_pos N with hN | hN
  · subst hN
    simp [ceilDiv, Nat.div_eq_of_lt (Nat.sub_lt hB Nat.one_pos)]
  · have h1 : N + B - 1 = (N - 1) + B := by omega
    have h2 : ((N - 1) + B) / B = (N - 1) / B + 1 := Nat.add_div_right _ hB
    have h3 : N / B = (N - 1) / B + if B ∣ N then 1 else 0 := by
      have hs := Nat.succ_div (N - 1) B
      rw [Nat.sub_add_cancel hN] at hs
      exact hs
    have h4 : (B ∣ N) ↔ N % B = 0 := Nat.dvd_iff_mod_eq_zero
    unfold ceilDiv
    rw [h1, h2, h3]
    by_cases h5 : N % B = 0
    · simp [h5, h4.mpr h5]
    · have h6 : ¬ B ∣ N := fun hdvd => h5 (h4.mp hdvd)
      simp [h5, h6]

theorem write_record_inv (B n : Nat) (hB : 0 < B) (s : WriterState)
    (hs : writerInv B n s) (r : String) :
    writerInv B (n + 1) (write_record s r) := by
  obtain ⟨h1, h2, h3, h4, h5⟩ := hs
  have hlt : n % B < B := Nat.mod_lt _ hB
  unfold write_record
  by_cases hfull : n % B + 1 = B
  · obtain ⟨hq, hm⟩ := succ_div_mod_of_full B n hB hfull
    have hcond : s.batch_size ≤ (s.current_batch ++ [r]).length := by
      simp [h1, h2, List.length_append]
      omega
    rw [if_pos hcond]
    have hne : (s.current_batch ++ [r]) ≠ [] := by simp
    unfold flush_batch
    simp only [hne, if_neg, if_false]
    refine ⟨h1, ?_, ?_, ?_, ?_⟩
    · simp [hm]
    · simp [h3, hq]
    · simp [h4]
    · simp [List.map_append, h5, hq, List.length_append, h2, hfull,
        List.replicate_succ']
  · have hpar : n % B + 1 < B := by omega
    obtain ⟨hq, hm⟩ := succ_div_mod_of_partial B n hB hpar
    have hcond : ¬ s.batch_size ≤ (s.current_batch ++ [r]).length := by
      simp [h1, h2, List.length_append]
      omega
    rw [if_neg hcond]
    refine ⟨h1, ?_, ?_, ?_, ?_⟩
    · simp [List.length_append, h2, hm]
    · simp [h3, hq]
    · simp [h4]
    · simp [h5, hq]

theorem write_records_inv (B n : Nat) (hB : 0 < B) (s : WriterState)
    (hs : writerInv B n s) (rs : List String) :
    writerInv B (n + rs.length) (write_records s rs) := by
  induction rs generalizing s n with
  | nil => simpa [write_records] using hs
  | cons r rest ih =>
    have h1 := write_record_inv B n hB s hs r
    have h2 := ih (n + 1) (write_record s r) h1
    simpa [write_records, List.foldl_cons, Nat.add_comm, Nat.add_assoc,
      Nat.add_left_comm] using h2

theorem initWriter_inv (B : Nat) : writerInv B 0 (initWriter B) := by
  refine ⟨rfl, ?_, ?_, rfl, ?_⟩ <;> simp [initWriter]

/-- Claim C2: writing N records one at a time through `write_record` with
batch capacity B ≥ 1 and then calling `finalize` produces exactly
ceil(N/B) batch files, each holding exactly B records except the last,
which holds N mod B records (or B when B divides N), and the manifest
reports `total_records = N` and `total_batches = ceil(N/B)`. -/
theorem c2_batching_exactness (B N : Nat) (hB : 1 ≤ B) (rs : List String)
    (hN : rs.length = N) :
    (finalize (write_records (initWriter B) rs)).2.total_records = N ∧
    (finalize (write_records (initWriter B) rs)).2.total_batches = ceilDiv N B ∧
    ((finalize (write_records (initWriter B) rs)).2.batch_files).map List.length
      = List.replicate (N / B) B ++ (if N % B = 0 then [] else [N % B]) := by
  have hB0 : 0 < B := hB
  have hinv := write_records_inv B 0 hB0 (initWriter B) (initWriter_inv B) rs
  rw [Nat.zero_add, hN] at hinv
  obtain ⟨h1, h2, h3, h4, h5⟩ := hinv
  have hceil := ceilDiv_eq N B hB0
  by_cases hm : N % B = 0
  · have hnil : (write_records (initWriter B) rs).current_batch = [] := by
      rw [← List.length_eq_zero]
      omega
    have hfl : flush_batch (write_records (initWriter B) rs)
        = write_records (initWriter B) rs := by
      unfold flush_batch
      rw [if_pos hnil]
    refine ⟨?_, ?_, ?_⟩
    · simp [finalize, hfl, h4]
    · simp [finalize, hfl, h3, hceil, hm]
    · simp [finalize, hfl, h5, hm]
  · have hnotnil : ¬ (write_records (initWriter B) rs).current_batch = [] := by
      intro hc
      rw [hc] at h2
      simp at h2
      omega
    refine ⟨?_, ?_, ?_⟩
    · simp [finalize, flush_batch, hnotnil, h4]
    · simp [finalize, flush_batch, hnotnil, h3, hceil, hm]
    · simp [finalize, flush_batch, hnotnil, h5, hm, h2]

/-- Witness for C2 at the spec's Scenario A: capacity 2, six records. -/
theorem c2_batching_exactness_witness :
    (finalize (write_records (initWriter 2)
        ["0", "1", "2", "3", "4", "5"])).2.total_records = 6 ∧
    (finalize (write_records (initWriter 2)
        ["0", "1", "2", "3", "4", "5"])).2.total_batches = ceilDiv 6 2 ∧
    ((finalize (write_records (initWriter 2)
        ["0", "1", "2", "3", "4", "5"])).2.batch_files).map List.length
      = List.replicate (6 / 2) 2 ++ (if 6 % 2 = 0 then [] else [6 % 2]) :=
  c2_batching_exactness 2 6 (by decide) ["0", "1", "2", "3", "4", "5"] rfl

/- Association-list lemmas for the dict model. -/

theorem dictGet_dictSet_same (d : CheckpointData) (k : String) (v : JVal) :
    dictGet (dictSet d k v) k = some v := by
  induction d with
  | nil => simp [dictSet, dictGet]
  | cons kv t ih =>
    obtain ⟨k', v'⟩ := kv
    by_cases h : k' = k <;> simp [dictSet, dictGet, h, ih]

theorem dictGet_dictSet_other (d : CheckpointData) (k k0 : String) (v : JVal)
    (h : k0 ≠ k) : dictGet (dictSet d k v) k0 = dictGet d k0 := by
  induction d with
  | nil =>
    simp only [dictSet, dictGet]
    rw [if_neg (fun hk => h hk.symm)]
  | cons kv t ih =>
    obtain ⟨k', v'⟩ := kv
    by_cases h1 : k' = k
    · subst h1
      simp [dictSet, dictGet, Ne.symm h, h]
    · by_cases h2 : k' = k0
      · subst h2
        simp [dictSet, dictGet, h1, h]
      · simp [dictSet, dictGet, h1, h2, ih]

theorem dictGet_dictUpdate (d : CheckpointData)
    (extra : List (String × JVal)) (k : String)
    (h : ∀ kv ∈ extra, kv.1 ≠ k) :
    dictGet (dictUpdate d extra) k = dictGet d k := by
  induction extra generalizing d with
  | nil => rfl
  | cons kv t ih =>
    have h1 : kv.1 ≠ k := h kv (List.mem_cons_self kv t)
    have h2 : ∀ kv' ∈ t, kv'.1 ≠ k := fun kv' hm => h kv' (List.mem_cons_of_mem _ hm)
    calc dictGet (dictUpdate d (kv :: t)) k
        = dictGet (dictUpdate (dictSet d kv.1 kv.2) t) k := rfl
      _ = dictGet (dictSet d kv.1 kv.2) k := ih _ h2
      _ = dictGet d k := dictGet_dictSet_other _ _ _ _ (Ne.symm h1)

theorem dictGetNum_dictSet_other (d : CheckpointData) (k k0 : String)
    (v : JVal) (h : k0 ≠ k) :
    dictGetNum (dictSet d k v) k0 = dictGetNum d k0 := by
  unfold dictGetNum
  rw [dictGet_dictSet_other _ _ _ _ h]

theorem dictGetNum_dictSet_num (d : CheckpointData) (k : String) (n : Int) :
    dictGetNum (dictSet d k (.num n)) k = n := by
  unfold dictGetNum
  rw [dictGet_dictSet_same]

theorem dictGetNum_dictUpdate (d : CheckpointData)
    (extra : List (String × JVal)) (k : String)
    (h : ∀ kv ∈ extra, kv.1 ≠ k) :
    dictGetNum (dictUpdate d extra) k = dictGetNum d k := by
  unfold dictGetNum
  rw [dictGet_dictUpdate _ _ _ h]

/-- Claim C3 (counterexample): the byte 0xFF is not valid UTF-8, so the
stored content cannot parse as a checkpoint, yet `load()` raises
`CheckpointError` instead of returning the absent result: opening the
file with `encoding="utf-8"` raises `UnicodeDecodeError`, which the
`except json.JSONDecodeError` clause does not catch. -/
theorem c3_load_invalid_utf8_raises :
    utf8DecodeChars [255] = none ∧
    loadFromBytes (fun _ => none) (some [255])
      = Except.error (CkptError.checkpointError
          "Failed to load checkpoint: UnicodeDecodeError") :=
  ⟨rfl, rfl⟩

/-- Claim C3 (amended): `load()` returns the absent result without
raising for stored content that decodes as UTF-8 text but fails JSON
parsing; content that is not valid UTF-8 instead raises
`CheckpointError`. -/
theorem c3_corruption_resilience (jp : String → Option CheckpointData)
    (bytes : List Nat) :
    (∀ cs, utf8DecodeChars bytes = some cs → jp (String.mk cs) = none →
      loadFromBytes jp (some bytes) = .ok none) ∧
    (utf8DecodeChars bytes = none →
      loadFromBytes jp (some bytes)
        = .error (.checkpointError
            "Failed to load checkpoint: UnicodeDecodeError")) := by
  constructor
  · intro cs hcs hjp
    simp [loadFromBytes, hcs, hjp]
  · intro h
    simp [loadFromBytes, h]

/-- Witness for C3 (amended) at concrete inputs: the single byte 0x78
decodes to the text "x", which the JSON parse rejects, and `load`
returns the absent result; the single byte 0xFF fails UTF-8 decoding and
`load` raises. -/
theorem c3_corruption_resilience_witness :
    utf8DecodeChars [120] = some [Char.ofNat 120] ∧
    loadFromBytes (fun _ => none) (some [120]) = .ok none ∧
    utf8DecodeChars [255] = none ∧
    loadFromBytes (fun _ => none) (some [255])
      = .error (.checkpointError
          "Failed to load checkpoint: UnicodeDecodeError") :=
  ⟨rfl,
    (c3_corruption_resilience (fun _ => none) [120]).1 [Char.ofNat 120] rfl rfl,
    rfl,
    (c3_corruption_resilience (fun _ => none) [255]).2 rfl⟩

/-- Claim C5 (counterexample): saving the valid checkpoint dictionary
holding only a cursor through a manager for platform "meta" and loading
it back does not return the dictionary changed only at `last_update`:
`save` also stamps the `platform` field, which the original lacked. -/
theorem c5_save_also_stamps_platform :
    ¬ (∀ k, k ≠ "last_update" →
        dictGet (ckptSave "meta" "T" [("cursor", JVal.str "abc")]) k
          = dictGet [("cursor", JVal.str "abc")] k) := by
  intro h
  have h2 := h "platform" (by decide)
  exact absurd h2 (by decide)

/-- Claim C5 (amended): save(c) followed by load() returns c
field-for-field except that `last_update` holds the save timestamp and
`platform` holds the manager's platform identifier; every other field of
c is returned unchanged. -/
theorem c5_roundtrip (c : CheckpointData) (platform ts : String) :
    dictGet (ckptSave platform ts c) "last_update" = some (JVal.str ts) ∧
    dictGet (ckptSave platform ts c) "platform" = some (JVal.str platform) ∧
    ∀ k, k ≠ "last_update" → k ≠ "platform" →
      dictGet (ckptSave platform ts c) k = dictGet c k := by
  refine ⟨?_, ?_, ?_⟩
  · rw [ckptSave, dictGet_dictSet_other _ _ _ _ (by decide),
      dictGet_dictSet_same]
  · rw [ckptSave, dictGet_dictSet_same]
  · intro k h1 h2
    rw [ckptSave, dictGet_dictSet_other _ _ _ _ h2,
      dictGet_dictSet_other _ _ _ _ h1]

/-- Witness for C5 (amended): the cursor field survives the round trip
unchanged through a save on a concrete checkpoint. -/
theorem c5_roundtrip_witness :
    dictGet (ckptSave "meta" "T" [("cursor", JVal.str "abc")]) "cursor"
      = dictGet [("cursor", JVal.str "abc")] "cursor" :=
  (c5_roundtrip [("cursor", JVal.str "abc")] "meta" "T").2.2 "cursor"
    (by decide) (by decide)

/- The effect of the checkpoint convenience writers on the persisted
`records_processed` counter. -/

theorem rpOf_some (d : CheckpointData) :
    rpOf (some d) = dictGetNum d "records_processed" := rfl

theorem rpOf_none : rpOf none = 0 := rfl

theorem rp_save_cursor (platform ts cursor : String) (rb : Int)
    (extra : List (String × JVal))
    (hx : ∀ kv ∈ extra, kv.1 ≠ "records_processed")
    (store : Option CheckpointData) :
    dictGetNum (save_cursor platform ts cursor rb extra store)
      "records_processed" = rpOf store + rb := by
  unfold save_cursor ckptSave
  rw [dictGetNum_dictSet_other _ _ _ _ (by decide),
    dictGetNum_dictSet_other _ _ _ _ (by decide),
    dictGetNum_dictUpdate _ _ _ hx,
    dictGetNum_dictSet_num,
    dictGetNum_dictSet_other _ _ _ _ (by decide)]
  cases store <;> simp [rpOf, dictGetNum, dictGet]

theorem rp_update_progress (platform ts : String) (n : Int)
    (extra : List (String × JVal))
    (hx : ∀ kv ∈ extra, kv.1 ≠ "records_processed")
    (store : Option CheckpointData) :
    dictGetNum (update_progress platform ts n extra store)
      "records_processed" = n := by
  unfold update_progress ckptSave
  rw [dictGetNum_dictSet_other _ _ _ _ (by decide),
    dictGetNum_dictSet_other _ _ _ _ (by decide),
    dictGetNum_dictUpdate _ _ _ hx,
    dictGetNum_dictSet_num]

/-- What one page's yield loop does to the checkpoint-write trace: the
trace stays non-decreasing, every write stays bounded by the stored
counter, the stored counter plus the pending `since` count advances by
exactly the number of ads processed, and the stored counter never
shrinks. -/
theorem adLoop_spec (platform ts : String) (I : Nat) (after : Option String)
    (extra : List (String × JVal))
    (hx : ∀ kv ∈ extra, kv.1 ≠ "records_processed") (k : Nat) :
    ∀ (since : Nat) (store : Option CheckpointData) (writes : List Int),
      List.Chain' (· ≤ ·) writes →
      (∀ w ∈ writes, w ≤ rpOf store) →
      List.Chain' (· ≤ ·)
          (adLoop platform ts I after extra k since store writes).2.2 ∧
      (∀ w ∈ (adLoop platform ts I after extra k since store writes).2.2,
          w ≤ rpOf (adLoop platform ts I after extra k since store writes).2.1) ∧
      rpOf (adLoop platform ts I after extra k since store writes).2.1 +
          ((adLoop platform ts I after extra k since store writes).1 : Int)
        = rpOf store + (since : Int) + (k : Int) ∧
      rpOf store ≤ rpOf (adLoop platform ts I after extra k since store writes).2.1 := by
  induction k with
  | zero =>
    intro since store writes hc hb
    exact ⟨hc, hb, by simp [adLoop], le_refl _⟩
  | succ k ih =>
    intro since store writes hc hb
    by_cases hcond : I ≤ since + 1 ∧ strTruthy after = true
    · set st' := save_cursor platform ts (after.getD "")
        ((since + 1 : Nat) : Int) extra store with hstdef
      have hstep : adLoop platform ts I after extra (k + 1) since store writes
          = adLoop platform ts I after extra k 0 (some st')
              (writes ++ [dictGetNum st' "records_processed"]) := by
        rw [adLoop, if_pos hcond]
      have hkey : rpOf (some st') = rpOf store + ((since + 1 : Nat) : Int) := by
        rw [rpOf_some, hstdef]
        exact rp_save_cursor platform ts (after.getD "") _ extra hx store
      have hb2 : ∀ w ∈ writes ++ [dictGetNum st' "records_processed"],
          w ≤ rpOf (some st') := by
        intro w hw
        rcases List.mem_append.mp hw with hw | hw
        · have := hb w hw
          omega
        · simp only [List.mem_singleton] at hw
          subst hw
          rw [rpOf_some]
      have hc2 : List.Chain' (· ≤ ·)
          (writes ++ [dictGetNum st' "records_processed"]) := by
        rw [List.chain'_append]
        refine ⟨hc, List.chain'_singleton _, ?_⟩
        intro x hxl y hy
        simp only [List.head?_cons, Option.mem_def, Option.some.injEq] at hy
        subst hy
        have hxm := List.mem_of_mem_getLast? hxl
        have hxb := hb x hxm
        have h5 : x ≤ rpOf (some st') := by omega
        rw [rpOf_some] at h5
        exact h5
      have hih := ih 0 (some st')
        (writes ++ [dictGetNum st' "records_processed"]) hc2 hb2
      rw [hstep]
      refine ⟨hih.1, hih.2.1, ?_, ?_⟩
      · have h3 := hih.2.2.1
        omega
      · have h4 := hih.2.2.2
        omega
    · have hstep : adLoop platform ts I after extra (k + 1) since store writes
          = adLoop platform ts I after extra k (since + 1) store writes := by
        rw [adLoop, if_neg hcond]
      have := ih (since + 1) store writes hc hb
      rw [hstep]
      refine ⟨this.1, this.2.1, ?_, this.2.2.2⟩
      have h3 := this.2.2.1
      push_cast at h3 ⊢
      omega

theorem pageExtra_keys (dr : String) (total' pc' : Int) :
    ∀ kv ∈ pageExtra dr total' pc', kv.1 ≠ "records_processed" := by
  intro kv hkv
  simp only [pageExtra, List.mem_cons, List.not_mem_nil, or_false] at hkv
  rcases hkv with h | h | h <;> subst h
  · show "total_fetched" ≠ "records_processed"
    decide
  · show "pages_processed" ≠ "records_processed"
    decide
  · show "date_range" ≠ "records_processed"
    decide

theorem finalExtra_keys (dr : String) (pc : Int) :
    ∀ kv ∈ finalExtra dr pc, kv.1 ≠ "records_processed" := by
  intro kv hkv
  simp only [finalExtra, List.mem_cons, List.not_mem_nil, or_false] at hkv
  rcases hkv with h | h | h <;> subst h
  · show "status" ≠ "records_processed"
    decide
  · show "pages_processed" ≠ "records_processed"
    decide
  · show "date_range" ≠ "records_processed"
    decide

/-- What the whole pagination loop does to the checkpoint-write trace,
provided the stored counter plus the pending `since` count equals the
running `total_ads`: the trace stays non-decreasing and every persisted
value is bounded by the final `total_ads`. -/
theorem pageLoop_spec (platform ts dr : String) (I : Nat) (pages : List Page) :
    ∀ (since : Nat) (total pc : Int) (store : Option CheckpointData)
      (writes : List Int),
      List.Chain' (· ≤ ·) writes →
      (∀ w ∈ writes, w ≤ rpOf store) →
      rpOf store + (since : Int) = total →
      List.Chain' (· ≤ ·)
        (pageLoop platform ts dr I pages since total pc store writes).2.1 ∧
      ∀ w ∈ (pageLoop platform ts dr I pages since total pc store writes).2.1,
        w ≤ (pageLoop platform ts dr I pages since total pc store writes).2.2.1 := by
  induction pages with
  | nil =>
    intro since total pc store writes hc hb heq
    refine ⟨hc, ?_⟩
    intro w hw
    have hwb := hb w hw
    have h0 : (0 : Int) ≤ (since : Int) := Int.natCast_nonneg _
    simp only [pageLoop]
    omega
  | cons pg rest ih =>
    intro since total pc store writes hc hb heq
    have ha := adLoop_spec platform ts I pg.after
      (pageExtra dr (total + (pg.count : Int)) (pc + 1))
      (pageExtra_keys dr _ _) pg.count since store writes hc hb
    by_cases hnext : pg.hasNext = true ∧ strTruthy pg.after = true
    · have hstep : pageLoop platform ts dr I (pg :: rest) since total pc
          store writes
          = pageLoop platform ts dr I rest
              (adLoop platform ts I pg.after
                (pageExtra dr (total + (pg.count : Int)) (pc + 1))
                pg.count since store writes).1
              (total + (pg.count : Int)) (pc + 1)
              (adLoop platform ts I pg.after
                (pageExtra dr (total + (pg.count : Int)) (pc + 1))
                pg.count since store writes).2.1
              (adLoop platform ts I pg.after
                (pageExtra dr (total + (pg.count : Int)) (pc + 1))
                pg.count since store writes).2.2 := by
        simp only [pageLoop]
        rw [if_pos hnext]
      have heq2 : rpOf (adLoop platform ts I pg.after
            (pageExtra dr (total + (pg.count : Int)) (pc + 1))
            pg.count since store writes).2.1 +
          ((adLoop platform ts I pg.after
            (pageExtra dr (total + (pg.count : Int)) (pc + 1))
            pg.count since store writes).1 : Int)
          = total + (pg.count : Int) := by
        have h3 := ha.2.2.1
        omega
      rw [hstep]
      exact ih _ _ _ _ _ ha.1 ha.2.1 heq2
    · have hstep : pageLoop platform ts dr I (pg :: rest) since total pc
          store writes
          = ((adLoop platform ts I pg.after
                (pageExtra dr (total + (pg.count : Int)) (pc + 1))
                pg.count since store writes).2.1,
              (adLoop platform ts I pg.after
                (pageExtra dr (total + (pg.count : Int)) (pc + 1))
                pg.count since store writes).2.2,
              total + (pg.count : Int), pc + 1) := by
        simp only [pageLoop]
        rw [if_neg hnext]
      rw [hstep]
      refine ⟨ha.1, ?_⟩
      intro w hw
      have hwb := ha.2.1 w hw
      have heq2 := ha.2.2.1
      have h0 : (0 : Int) ≤ ((adLoop platform ts I pg.after
          (pageExtra dr (total + (pg.count : Int)) (pc + 1))
          pg.count since store writes).1 : Int) := Int.natCast_nonneg _
      show w ≤ total + (pg.count : Int)
      omega

/-- Claim C6 (counterexample): a run resuming from a pre-existing
checkpoint with `records_processed = 10`, with checkpoint interval 2 and
a single terminal page of 2 ads carrying cursor "c1", persists 12 at the
periodic `save_cursor` and then 2 at the end-of-pagination
`update_progress` (which stores only this run's `total_ads`): the
persisted `records_processed` values strictly decrease within the run. -/
theorem c6_resumed_run_not_monotone :
    (fetchAdsCkpt "meta" "T" "d" 2 [⟨2, some "c1", false⟩]
        (some [("records_processed", JVal.num 10)])).2 = [12, 2] ∧
    ¬ List.Chain' (· ≤ ·)
      ((fetchAdsCkpt "meta" "T" "d" 2 [⟨2, some "c1", false⟩]
        (some [("records_processed", JVal.num 10)])).2) := by
  have h : (fetchAdsCkpt "meta" "T" "d" 2 [⟨2, some "c1", false⟩]
      (some [("records_processed", JVal.num 10)])).2 = [12, 2] := by rfl
  refine ⟨h, ?_⟩
  rw [h]
  intro hch
  rw [List.chain'_cons] at hch
  exact absurd hch.1 (by norm_num)

/-- Claim C6 (amended): within a run that starts with no pre-existing
checkpoint, the `records_processed` values persisted by every periodic
`save_cursor` and by the final `update_progress` form a monotonically
non-decreasing sequence. -/
theorem c6_records_processed_monotone_fresh (platform ts dr : String)
    (I : Nat) (pages : List Page) :
    List.Chain' (· ≤ ·) ((fetchAdsCkpt platform ts dr I pages none).2) := by
  have hp := pageLoop_spec platform ts dr I pages 0 0 0 none []
    List.chain'_nil (by intro w hw; simp at hw) rfl
  obtain ⟨hchain, hbound⟩ := hp
  simp only [fetchAdsCkpt]
  rw [List.chain'_append]
  refine ⟨hchain, List.chain'_singleton _, ?_⟩
  intro x hxl y hy
  simp only [List.head?_cons, Option.mem_def, Option.some.injEq] at hy
  subst hy
  have hxm := List.mem_of_mem_getLast? hxl
  have hxb := hbound x hxm
  rw [rp_update_progress platform ts _ _ (finalExtra_keys dr _) _]
  exact hxb

/-- Claim C7: `reportThrottled(retry_after, attempt)` raises
`RateLimitExceeded` without sleeping or mutating anything when
`attempt > max_retries`; otherwise it returns (and sleeps) `retry_after`
when given and `initial_retry_delay * backoff_multiplier^(attempt-1)`
otherwise, increments the throttle counter, and leaves the bucket at
full capacity (`tokens = burst`). -/
theorem c7_reportThrottled_spec (s : RL) (now : Rat) (ra : Option Rat)
    (attempt : Int) :
    ((s.max_retries : Int) < attempt →
      handle_rate_limit_error s now ra attempt = .error .rateLimitExceeded ∧
      RLOp.apply s (.throttled now ra attempt) = s) ∧
    (attempt ≤ (s.max_retries : Int) →
      ∃ w s', handle_rate_limit_error s now ra attempt = .ok (w, s') ∧
        w = (match ra with
          | some r => r
          | none => s.initial_retry_delay *
              s.backoff_multiplier ^ (attempt - 1)) ∧
        s'.rate_limit_errors = s.rate_limit_errors + 1 ∧
        s'.total_wait_time = s.total_wait_time + w ∧
        s'.tokens = (s.burst : Rat)) := by
  constructor
  · intro h
    constructor
    · simp [handle_rate_limit_error, h]
    · simp [RLOp.apply, handle_rate_limit_error, h]
  · intro h
    have hn : ¬ (s.max_retries : Int) < attempt := not_lt.mpr h
    unfold handle_rate_limit_error
    rw [if_neg hn]
    exact ⟨_, _, rfl, rfl, rfl, rfl, rfl⟩

/-- Witness for C7 with the constructor defaults (max_retries 3,
initial delay 60s, multiplier 2): attempt 4 raises; attempt 2 with no
Retry-After sleeps 60 * 2^1 = 120 seconds. -/
theorem c7_reportThrottled_spec_witness :
    (handle_rate_limit_error (RL.init 180 5 2 3 60 0) 0 none 4
      = .error .rateLimitExceeded) ∧
    (∃ w s', handle_rate_limit_error (RL.init 180 5 2 3 60 0) 0 none 2
        = .ok (w, s') ∧
      w = (match (none : Option Rat) with
        | some r => r
        | none => (RL.init 180 5 2 3 60 0).initial_retry_delay *
            (RL.init 180 5 2 3 60 0).backoff_multiplier ^ ((2 : Int) - 1)) ∧
      s'.rate_limit_errors = (RL.init 180 5 2 3 60 0).rate_limit_errors + 1 ∧
      s'.total_wait_time = (RL.init 180 5 2 3 60 0).total_wait_time + w ∧
      s'.tokens = ((RL.init 180 5 2 3 60 0).burst : Rat)) :=
  ⟨((c7_reportThrottled_spec (RL.init 180 5 2 3 60 0) 0 none 4).1
      (by decide)).1,
    (c7_reportThrottled_spec (RL.init 180 5 2 3 60 0) 0 none 2).2
      (by decide)⟩

/- Preservation of the token-bucket bound by each operation. -/

theorem wait_if_needed_tokens_bounds (s : RL) (now : Rat) :
    0 ≤ (wait_if_needed s now).2.tokens ∧
    (wait_if_needed s now).2.tokens ≤ (s.burst : Rat) := by
  unfold wait_if_needed
  by_cases hlt :
      min ((s.burst : Rat)) (s.tokens + (now - s.last_update) * s.rps) < 1
  · simp only [hlt, if_pos]
    constructor
    · norm_num
    · norm_num
  · simp only [hlt, if_neg, if_false]
    have h1 : (1 : Rat) ≤
        min ((s.burst : Rat)) (s.tokens + (now - s.last_update) * s.rps) :=
      not_lt.mp hlt
    have h2 : min ((s.burst : Rat)) (s.tokens + (now - s.last_update) * s.rps)
        ≤ (s.burst : Rat) := min_le_left _ _
    constructor
    · linarith
    · linarith

theorem RLOp_apply_burst (s : RL) (op : RLOp) :
    (RLOp.apply s op).burst = s.burst := by
  cases op with
  | acquire now => rfl
  | throttled now ra attempt =>
    simp only [RLOp.apply]
    unfold handle_rate_limit_error
    by_cases hc : (s.max_retries : Int) < attempt
    · rw [if_pos hc]
    · rw [if_neg hc]
  | reset now => rfl

theorem RLOp_apply_tokens_bounds (s : RL) (op : RLOp)
    (h2 : 0 ≤ s.tokens) (h3 : s.tokens ≤ (s.burst : Rat)) :
    0 ≤ (RLOp.apply s op).tokens ∧
    (RLOp.apply s op).tokens ≤ (s.burst : Rat) := by
  cases op with
  | acquire now => exact wait_if_needed_tokens_bounds s now
  | throttled now ra attempt =>
    simp only [RLOp.apply]
    unfold handle_rate_limit_error
    by_cases hc : (s.max_retries : Int) < attempt
    · rw [if_pos hc]
      exact ⟨h2, h3⟩
    · rw [if_neg hc]
      exact ⟨Nat.cast_nonneg _, le_refl _⟩
  | reset now => exact ⟨Nat.cast_nonneg _, le_refl _⟩

/-- Claim C8: starting from construction, 0 ≤ tokens ≤ burst holds after
every sequence of RateLimiter calls — token waits, throttling reports
(successful or raising), and resets — at arbitrary wall-clock times. -/
theorem c8_token_bucket_invariant (rpm burst : Nat) (bm : Rat) (mr : Nat)
    (ird : Rat) (t0 : Rat) (ops : List RLOp) :
    0 ≤ (runOps (RL.init rpm burst bm mr ird t0) ops).tokens ∧
    (runOps (RL.init rpm burst bm mr ird t0) ops).tokens ≤ (burst : Rat) := by
  suffices h : ∀ (s : RL), s.burst = burst → 0 ≤ s.tokens →
      s.tokens ≤ (burst : Rat) →
      (runOps s ops).burst = burst ∧ 0 ≤ (runOps s ops).tokens ∧
        (runOps s ops).tokens ≤ (burst : Rat) by
    have hres := h (RL.init rpm burst bm mr ird t0) rfl
      (Nat.cast_nonneg _) (le_refl _)
    exact ⟨hres.2.1, hres.2.2⟩
  induction ops with
  | nil => intro s h1 h2 h3; exact ⟨h1, h2, h3⟩
  | cons op rest ih =>
    intro s h1 h2 h3
    have h3' : s.tokens ≤ (s.burst : Rat) := by rw [h1]; exact h3
    have hb := RLOp_apply_burst s op
    have ht := RLOp_apply_tokens_bounds s op h2 h3'
    have ht2 : (RLOp.apply s op).tokens ≤ (burst : Rat) := by
      rw [← h1]; exact ht.2
    have hstep : runOps s (op :: rest) = runOps (RLOp.apply s op) rest := rfl
    rw [hstep]
    exact ih (RLOp.apply s op) (by rw [hb, h1]) ht.1 ht2

/- Step equations for the retry loop, one per provider-reply shape. -/

theorem tenacityLoop_ok (resp : Nat → ApiResp) (now : Rat) (n attempt : Nat)
    (s : RL) (h : resp attempt = .ok) :
    tenacityLoop resp now (n + 1) attempt s = (.ok (), s, 1) := by
  conv_lhs => rw [tenacityLoop]
  rw [h]
  simp [attemptOnce]

theorem tenacityLoop_api (resp : Nat → ApiResp) (now : Rat) (n attempt : Nat)
    (s : RL) (h : resp attempt = .apiError) :
    tenacityLoop resp now (n + 1) attempt s
      = (.error .apiError, s, 1) := by
  conv_lhs => rw [tenacityLoop]
  rw [h]
  simp [attemptOnce, retryable]

theorem tenacityLoop_throttled_base (resp : Nat → ApiResp) (now : Rat)
    (attempt : Nat) (s : RL) (ra : Rat) (h : resp attempt = .throttled ra) :
    tenacityLoop resp now 1 attempt s
      = (.error (.retryExhausted .rateLimitError),
          (attemptOnce (resp attempt) s now).2, 1) := by
  conv_lhs => rw [show (1 : Nat) = 0 + 1 from rfl, tenacityLoop]
  rw [h]
  cases hh : handle_rate_limit_error s now (some ra) 1 <;>
    simp [attemptOnce, hh, retryable]

theorem tenacityLoop_net_base (resp : Nat → ApiResp) (now : Rat)
    (attempt : Nat) (s : RL) (h : resp attempt = .netError) :
    tenacityLoop resp now 1 attempt s
      = (.error (.retryExhausted .netError), s, 1) := by
  conv_lhs => rw [show (1 : Nat) = 0 + 1 from rfl, tenacityLoop]
  rw [h]
  simp [attemptOnce, retryable]

theorem tenacityLoop_throttled_step (resp : Nat → ApiResp) (now : Rat)
    (m attempt : Nat) (s : RL) (ra : Rat) (h : resp attempt = .throttled ra) :
    tenacityLoop resp now (m + 2) attempt s
      = ((tenacityLoop resp now (m + 1) (attempt + 1)
            (attemptOnce (resp attempt) s now).2).1,
          (tenacityLoop resp now (m + 1) (attempt + 1)
            (attemptOnce (resp attempt) s now).2).2.1,
          (tenacityLoop resp now (m + 1) (attempt + 1)
            (attemptOnce (resp attempt) s now).2).2.2 + 1) := by
  conv_lhs => rw [show m + 2 = (m + 1) + 1 from rfl, tenacityLoop]
  rw [h]
  cases hh : handle_rate_limit_error s now (some ra) 1 <;>
    simp [attemptOnce, hh, retryable]

theorem tenacityLoop_net_step (resp : Nat → ApiResp) (now : Rat)
    (m attempt : Nat) (s : RL) (h : resp attempt = .netError) :
    tenacityLoop resp now (m + 2) attempt s
      = ((tenacityLoop resp now (m + 1) (attempt + 1) s).1,
          (tenacityLoop resp now (m + 1) (attempt + 1) s).2.1,
          (tenacityLoop resp now (m + 1) (attempt + 1) s).2.2 + 1) := by
  conv_lhs => rw [show m + 2 = (m + 1) + 1 from rfl, tenacityLoop]
  rw [h]
  simp [attemptOnce, retryable]

/-- Behaviour of the retry loop with `n + 1` attempts of budget left: it
issues at most `n + 1` requests; a bare `RateLimitError` never escapes
(retryable errors are either retried or wrapped in `RetryError`); and
when every reply is a throttling reply it issues exactly `n + 1`
requests and fails with `RetryError` wrapping the final
`RateLimitError`. -/
theorem tenacityLoop_spec (resp : Nat → ApiResp) (now : Rat) (n : Nat) :
    ∀ (attempt : Nat) (s : RL),
      (tenacityLoop resp now (n + 1) attempt s).2.2 ≤ n + 1 ∧
      (tenacityLoop resp now (n + 1) attempt s).1
        ≠ .error .rateLimitError ∧
      ((∀ m, ∃ ra, resp m = .throttled ra) →
        (tenacityLoop resp now (n + 1) attempt s).2.2 = n + 1 ∧
        (tenacityLoop resp now (n + 1) attempt s).1
          = .error (.retryExhausted .rateLimitError)) := by
  induction n with
  | zero =>
    intro attempt s
    cases h : resp attempt with
    | ok =>
      rw [tenacityLoop_ok resp now 0 attempt s h]
      refine ⟨by dsimp only; omega, by dsimp only; simp, ?_⟩
      intro hall
      obtain ⟨ra, hra⟩ := hall attempt
      rw [h] at hra
      cases hra
    | throttled ra =>
      rw [tenacityLoop_throttled_base resp now attempt s ra h]
      exact ⟨by dsimp only; omega, by dsimp only; simp, fun _ => ⟨rfl, rfl⟩⟩
    | apiError =>
      rw [tenacityLoop_api resp now 0 attempt s h]
      refine ⟨by dsimp only; omega, by dsimp only; simp, ?_⟩
      intro hall
      obtain ⟨ra, hra⟩ := hall attempt
      rw [h] at hra
      cases hra
    | netError =>
      rw [tenacityLoop_net_base resp now attempt s h]
      refine ⟨by dsimp only; omega, by dsimp only; simp, ?_⟩
      intro hall
      obtain ⟨ra, hra⟩ := hall attempt
      rw [h] at hra
      cases hra
  | succ m ih =>
    intro attempt s
    cases h : resp attempt with
    | ok =>
      rw [tenacityLoop_ok resp now (m + 1) attempt s h]
      refine ⟨by dsimp only; omega, by dsimp only; simp, ?_⟩
      intro hall
      obtain ⟨ra, hra⟩ := hall attempt
      rw [h] at hra
      cases hra
    | throttled ra =>
      rw [tenacityLoop_throttled_step resp now m attempt s ra h]
      have hrec := ih (attempt + 1) (attemptOnce (resp attempt) s now).2
      refine ⟨?_, hrec.2.1, ?_⟩
      · have h1 := hrec.1
        dsimp only
        omega
      · intro hall
        have hr := hrec.2.2 hall
        refine ⟨?_, hr.2⟩
        have h1 := hr.1
        dsimp only
        omega
    | apiError =>
      rw [tenacityLoop_api resp now (m + 1) attempt s h]
      refine ⟨by dsimp only; omega, by dsimp only; simp, ?_⟩
      intro hall
      obtain ⟨ra, hra⟩ := hall attempt
      rw [h] at hra
      cases hra
    | netError =>
      rw [tenacityLoop_net_step resp now m attempt s h]
      have hrec := ih (attempt + 1) s
      refine ⟨?_, hrec.2.1, ?_⟩
      · have h1 := hrec.1
        dsimp only
        omega
      · intro hall
        obtain ⟨ra, hra⟩ := hall attempt
        rw [h] at hra
        cases hra

/-- Claim C4: a request that keeps receiving throttling replies is
retried only a bounded number of times — `_make_request` issues at most
5 attempts per call — after which the rate-limit failure surfaces to the
caller as fatal: tenacity's `RetryError` wrapping the final
`RateLimitError` escapes `fetch_ads` (its `except RateLimitError`
re-issue branch can never fire, because a bare `RateLimitError` never
escapes the decorated call), so the same request is never reissued an
unbounded number of times. -/
theorem c4_bounded_retry (resp : Nat → ApiResp) (now : Rat) (s : RL) :
    (makeRequest resp now s).2.2 ≤ 5 ∧
    (makeRequest resp now s).1 ≠ .error .rateLimitError ∧
    ((∀ m, ∃ ra, resp m = .throttled ra) →
      (makeRequest resp now s).2.2 = 5 ∧
      (makeRequest resp now s).1
        = .error (.retryExhausted .rateLimitError)) :=
  tenacityLoop_spec resp now 4 1 s

/-- Witness for C4: a provider that throttles every attempt with
Retry-After 60 causes exactly 5 issued requests and a fatal
retry-exhausted rate-limit error. -/
theorem c4_bounded_retry_witness :
    (makeRequest (fun _ => ApiResp.throttled 60) 0
        (RL.init 180 5 2 3 60 0)).2.2 = 5 ∧
    (makeRequest (fun _ => ApiResp.throttled 60) 0
        (RL.init 180 5 2 3 60 0)).1
      = .error (.retryExhausted .rateLimitError) :=
  (c4_bounded_retry (fun _ => ApiResp.throttled 60) 0
      (RL.init 180 5 2 3 60 0)).2.2 (fun _ => ⟨60, rfl⟩)

/-- Claim C9 (counterexample): a record with every required field present,
`impressions_min = 10 > 5 = impressions_max`, and no other data passes
`validate_record`: the code checks min > max for the spend range only,
never for the impressions range. -/
theorem c9_impressions_not_checked :
    validate_record (fun _ => true)
      { ad_id := some (.str "123"), platform := some (.str "meta"),
        advertiser_name := some (.str "X"), start_date := none,
        end_date := none, ad_creation_time := none, spend_min := none,
        spend_max := none, impressions_min := some 10,
        impressions_max := some 5 } = (true, none) ∧
    (5 : Rat) < 10 :=
  ⟨rfl, by norm_num⟩

/-- Claim C9 (amended): a record with a missing or empty required field
fails validation, with the reason naming the first such field; and a
record whose spend bounds are both present with min > max fails
validation. The impressions bounds are not checked. -/
theorem c9_validation (isoOk : String → Bool) (r : AdRecord) :
    (∀ f ∈ (["ad_id", "platform", "advertiser_name"] : List String),
      missingOrEmpty (getRequired r f) = true →
        (validate_record isoOk r).1 = false ∧
        ∃ g ∈ (["ad_id", "platform", "advertiser_name"] : List String),
          missingOrEmpty (getRequired r g) = true ∧
          (validate_record isoOk r).2
            = some ("Missing or empty required field: " ++ g)) ∧
    (∀ a b, r.spend_min = some a → r.spend_max = some b → b < a →
      (validate_record isoOk r).1 = false) := by
  constructor
  · intro f hf hmiss
    by_cases m1 : missingOrEmpty (getRequired r "ad_id") = true
    · have hval : validate_record isoOk r
          = (false, some ("Missing or empty required field: " ++ "ad_id")) := by
        simp [validate_record, validateRequiredFields, m1]
      rw [hval]
      exact ⟨rfl, "ad_id", by simp, m1, rfl⟩
    · by_cases m2 : missingOrEmpty (getRequired r "platform") = true
      · have hval : validate_record isoOk r
            = (false,
                some ("Missing or empty required field: " ++ "platform")) := by
          simp [validate_record, validateRequiredFields, m1, m2]
        rw [hval]
        exact ⟨rfl, "platform", by simp, m2, rfl⟩
      · by_cases m3 : missingOrEmpty (getRequired r "advertiser_name") = true
        · have hval : validate_record isoOk r
              = (false, some ("Missing or empty required field: "
                  ++ "advertiser_name")) := by
            simp [validate_record, validateRequiredFields, m1, m2, m3]
          rw [hval]
          exact ⟨rfl, "advertiser_name", by simp, m3, rfl⟩
        · exfalso
          fin_cases hf
          · exact m1 hmiss
          · exact m2 hmiss
          · exact m3 hmiss
  · intro a b hmin hmax hlt
    have htrig : spendCheckTriggers r.spend_min r.spend_max = true := by
      rw [hmin, hmax]
      simp [spendCheckTriggers, hlt]
    by_cases h1 : (validateRequiredFields r
        ["ad_id", "platform", "advertiser_name"]).1 = true
    · by_cases h2 : (pyFalsy r.ad_id || strOfStripEmpty r.ad_id) = true
      · simp [validate_record, h1, h2]
      · by_cases h3 : r.platform = some (.str "meta")
        · by_cases h4 : (dateCheck isoOk
              [("start_date", r.start_date), ("end_date", r.end_date),
                ("ad_creation_time", r.ad_creation_time)]).1 = true
          · simp [validate_record, h1, h2, h3, h4, htrig]
          · have h4' : (dateCheck isoOk
                [("start_date", r.start_date), ("end_date", r.end_date),
                  ("ad_creation_time", r.ad_creation_time)]).1 = false := by
              simpa using h4
            simp [validate_record, h1, h2, h3, h4']
        · simp [validate_record, h1, h2, h3]
    · have h1' : (validateRequiredFields r
          ["ad_id", "platform", "advertiser_name"]).1 = false := by
        simpa using h1
      simp [validate_record, h1']

/-- Witness for C9 (amended): a record missing `advertiser_name` fails
with the reason naming it; a record with spend 500 > 100 fails. -/
theorem c9_validation_witness :
    ((validate_record (fun _ => true)
        { ad_id := some (.str "123"), platform := some (.str "meta"),
          advertiser_name := none, start_date := none, end_date := none,
          ad_creation_time := none, spend_min := none, spend_max := none,
          impressions_min := none, impressions_max := none }).1 = false ∧
      ∃ g ∈ (["ad_id", "platform", "advertiser_name"] : List String),
        missingOrEmpty (getRequired
          { ad_id := some (.str "123"), platform := some (.str "meta"),
            advertiser_name := none, start_date := none, end_date := none,
            ad_creation_time := none, spend_min := none, spend_max := none,
            impressions_min := none, impressions_max := none } g) = true ∧
        (validate_record (fun _ => true)
          { ad_id := some (.str "123"), platform := some (.str "meta"),
            advertiser_name := none, start_date := none, end_date := none,
            ad_creation_time := none, spend_min := none, spend_max := none,
            impressions_min := none, impressions_max := none }).2
          = some ("Missing or empty required field: " ++ g)) ∧
    (validate_record (fun _ => true)
        { ad_id := some (.str "123"), platform := some (.str "meta"),
          advertiser_name := some (.str "X"), start_date := none,
          end_date := none, ad_creation_time := none,
          spend_min := some 500, spend_max := some 100,
          impressions_min := none, impressions_max := none }).1 = false :=
  ⟨(c9_validation (fun _ => true)
      { ad_id := some (.str "123"), platform := some (.str "meta"),
        advertiser_name := none, start_date := none, end_date := none,
        ad_creation_time := none, spend_min := none, spend_max := none,
        impressions_min := none, impressions_max := none }).1
      "advertiser_name" (by simp) rfl,
    (c9_validation (fun _ => true)
      { ad_id := some (.str "123"), platform := some (.str "meta"),
        advertiser_name := some (.str "X"), start_date := none,
        end_date := none, ad_creation_time := none,
        spend_min := some 500, spend_max := some 100,
        impressions_min := none, impressions_max := none }).2
      500 100 rfl rfl (by norm_num)⟩

/-- Claim C10 (counterexample): the open-ended range whose lower bound
"abc" does not parse as a float leaves both `min` and `max` unset
(`None`) — they are not set to the lower bound value, because the
`ValueError` from `float()` jumps to the except clause before the
assignment. -/
theorem c10_unparseable_lower_yields_null :
    parse_range pyFloat
        (some { lower_bound := some "abc", upper_bound := none })
      = (none, none) ∧
    pyFloat (stripCommas "abc") = none :=
  ⟨rfl, rfl⟩

/-- Claim C10 (amended): for a raw range with a lower bound and no upper
bound, `min` and `max` are both set to the parsed lower bound when it
parses as a number, and both left null otherwise; in either case
`min = max`, so a transformed open-ended range can never trigger the
`spend_min > spend_max` validation failure. -/
theorem c10_open_range_min_eq_max (pf : String → Option Rat) (l : String) :
    (parse_range pf (some { lower_bound := some l, upper_bound := none })).1
      = (parse_range pf
          (some { lower_bound := some l, upper_bound := none })).2 ∧
    (∀ v, pf (stripCommas l) = some v →
      parse_range pf (some { lower_bound := some l, upper_bound := none })
        = (some v, some v)) ∧
    (pf (stripCommas l) = none →
      parse_range pf (some { lower_bound := some l, upper_bound := none })
        = (none, none)) ∧
    spendCheckTriggers
      (parse_range pf
        (some { lower_bound := some l, upper_bound := none })).1
      (parse_range pf
        (some { lower_bound := some l, upper_bound := none })).2
      = false := by
  cases hp : pf (stripCommas l) with
  | none => simp [parse_range, hp, spendCheckTriggers]
  | some v => simp [parse_range, hp, spendCheckTriggers]

/-- Witness for C10 (amended): the open-ended spend range with lower
bound "5000" parses to min = max = 5000. -/
theorem c10_open_range_min_eq_max_witness :
    pyFloat (stripCommas "5000") = some 5000 ∧
    parse_range pyFloat
        (some { lower_bound := some "5000", upper_bound := none })
      = (some 5000, some 5000) :=
  ⟨rfl, (c10_open_range_min_eq_max pyFloat "5000").2.1 5000 rfl⟩

theorem processItem_no_auth (a : Adapter) (dry : Bool)
    (acc : WriterState × RunStats × List RunEvent) (raw : String)
    (h : RunEvent.authenticateCall ∉ acc.2.2) :
    RunEvent.authenticateCall ∉ (processItem a dry acc raw).2.2 := by
  obtain ⟨w, st, evs⟩ := acc
  by_cases hv : (a.validate (a.transform raw)).1 = true <;>
    by_cases hd : dry = true <;>
      simp_all [processItem, List.mem_append]

theorem foldl_no_auth (a : Adapter) (dry : Bool) (items : List String) :
    ∀ (acc : WriterState × RunStats × List RunEvent),
      RunEvent.authenticateCall ∉ acc.2.2 →
      RunEvent.authenticateCall ∉ (items.foldl (processItem a dry) acc).2.2 := by
  induction items with
  | nil => intro acc h; exact h
  | cons raw rest ih =>
    intro acc h
    exact ih (processItem a dry acc raw) (processItem_no_auth a dry acc raw h)

/-- Claim C1 (code_bug evidence): for every adapter and every non-dry
`run()` call, the call trace contains no `authenticate()` call — `run`
starts fetching directly, contradicting both the claim and its own
docstring's "1. Authenticate with the API" — and a manifest is always
produced by the `finally` block, even when authentication would have
failed and the fetch stream raises. The second half evaluates the model
at such a failing input: an adapter whose `authenticate()` would return
false and whose fetch raises an APIError after one item still gets its
item written to a batch file, still produces a manifest, and never sees
an authentication check. -/
theorem c1_run_skips_authentication (a : Adapter) (B : Nat) :
    (RunEvent.authenticateCall ∉ (runCollector a B false).events ∧
      (runCollector a B false).stats.manifest.isSome = true) ∧
    ((runCollector
        { authOk := false, fetchItems := ["raw1"],
          fetchEnd := .raised "APIError", transform := id,
          validate := fun _ => (true, none) } 2 false).stats.manifest
        = some { total_records := 1, total_batches := 1,
                 batch_files := [["raw1"]] } ∧
      (runCollector
        { authOk := false, fetchItems := ["raw1"],
          fetchEnd := .raised "APIError", transform := id,
          validate := fun _ => (true, none) } 2 false).raised
        = some "APIError" ∧
      RunEvent.authenticateCall ∉ (runCollector
        { authOk := false, fetchItems := ["raw1"],
          fetchEnd := .raised "APIError", transform := id,
          validate := fun _ => (true, none) } 2 false).events) := by
  constructor
  · constructor
    · simp only [runCollector]
      intro hcon
      rcases List.mem_append.mp hcon with hcon | hcon
      · exact foldl_no_auth a false a.fetchItems _ (by simp) hcon
      · simp at hcon
    · simp [runCollector]
  · refine ⟨rfl, rfl, ?_⟩
    decide
